import Mathlib

/-!
# Dashboard client state engine

A shallow embedding of `src/dashboard/script.js`: the global `state` object, the
search handler installed by `wireSearch`, the aggregation done by `renderChart`,
the feed callback armed by `startRealtimeSimulation`, `stopRealtimeSimulation`
and the load operation `fetchData`.

Conventions of the embedding.

* A JavaScript string is the list of its UTF-16 code units.
* Amounts are exact rationals; the rounding of IEEE doubles is not modelled.
* Built-ins whose result depends on the host (case mapping, time formatting) are
  fields of `Platform`.
* The DOM and Chart.js are reduced to what the state engine reads or writes:
  whether the chart canvas and the metric-card container exist, the value of
  the search box, the armed interval timers, and the labels and values handed
  to the chart.  Painting the table and the metric cards does not touch `state`.
* Transactions are objects with a string `id` and `product` (either may be
  absent), a date string and a numeric amount.  On such entries `renderTable`
  and, Chart.js being loaded as line 174 requires, `renderChart` do not throw.
  `renderMetrics` throws on a `null` entry of `metrics`; inside `fetchData` the
  exception is caught by the enclosing `try`, after the store was assigned.
* Callbacks run to completion, one at a time; `fetchData` is split at the
  point where it awaits the fallback request.
-/

namespace Dashboard

/-! ## Strings -/

/-- A JavaScript string: its UTF-16 code units. -/
abbrev JsString := List Nat

/-- Code units of a literal (used for literals of the Basic Multilingual Plane). -/
def lit (s : String) : JsString := s.toList.map Char.toNat

/-- Code units removed by `String.prototype.trim`: WhiteSpace and LineTerminator
of ECMA-262 (TAB, LF, VT, FF, CR, SP, NBSP, the Zs category, LS, PS, ZWNBSP). -/
def isTrimmable (c : Nat) : Bool :=
  c == 9 || c == 10 || c == 11 || c == 12 || c == 13 || c == 32 || c == 160 ||
  c == 5760 || (8192 ≤ c && c ≤ 8202) || c == 8232 || c == 8233 || c == 8239 ||
  c == 8287 || c == 12288 || c == 65279

/-- The built-in `String.prototype.trim`. -/
def trim (s : JsString) : JsString :=
  ((s.dropWhile isTrimmable).reverse.dropWhile isTrimmable).reverse

/-- The built-in `String.prototype.includes(q)`: does `q` occur in `s` as a
contiguous run of code units. -/
def includes : JsString → JsString → Bool
  | [], q => q.isEmpty
  | c :: s, q => q.isPrefixOf (c :: s) || includes s q

/-- The built-in `String(n)` for a non-negative integer: its decimal digits. -/
def natToJsString (n : Nat) : JsString := (Nat.toDigits 10 n).map Char.toNat

/-- Is `k` a canonical array index (the decimal form of an integer below
`2^32 - 1`)?  `Object.keys` lists such keys first, in ascending numeric order. -/
def isArrayIndex (k : JsString) : Bool :=
  !k.isEmpty && k.all (fun c => 48 ≤ c && c ≤ 57) &&
  (k == [48] || k.head? != some 48) &&
  k.foldl (fun acc c => acc * 10 + (c - 48)) 0 < 4294967295

/-- Numeric value of an array-index key. -/
def indexValue (k : JsString) : Nat := k.foldl (fun acc c => acc * 10 + (c - 48)) 0

/-- ASCII letters and digits, `_` and `$`: the code units of identifier-like
property names (`constructor`, `toString`, ...) and of array indices. -/
def isWordUnit (c : Nat) : Bool :=
  (48 ≤ c && c ≤ 57) || (65 ≤ c && c ≤ 90) || (97 ≤ c && c ≤ 122) || c == 95 || c == 36

/-- Host-dependent built-ins used by the script, with the two facts about them
that the script relies on. -/
structure Platform where
  /-- The built-in `String.prototype.toLowerCase`. -/
  toLowerCase : JsString → JsString
  /-- The label of a date string:
  the value of `new Date(d).toLocaleTimeString([], {hour: "2-digit", minute: "2-digit"})`. -/
  timeLabel : JsString → JsString
  /-- Lower-casing the empty string gives the empty string. -/
  toLowerCase_nil : toLowerCase [] = []
  /-- A formatted time (or the text `Invalid Date`) contains a separator: a code
  unit that is neither an ASCII letter, nor an ASCII digit, nor `_`, nor `$`. -/
  timeLabel_has_separator : ∀ d, ∃ c ∈ timeLabel d, isWordUnit c = false

/-! ## Data model -/

/-- A transaction as the script reads it.  `id` and `product` may be absent
(the search handler guards both with `|| ""`). -/
structure Transaction where
  id : Option JsString
  product : Option JsString
  date : JsString
  amount : ℚ
deriving DecidableEq

/-- What the chart is given: `chart.data.labels` and `chart.data.datasets[0].data`. -/
structure ChartData where
  labels : List JsString
  values : List ℚ
deriving DecidableEq

/-- The global `state` object (lines 4-11). -/
structure State where
  transactions : List Transaction
  filtered : List Transaction
  chart : Option ChartData
  lastId : Nat
  simulationHandle : Option Nat
  apiOnline : Bool
deriving DecidableEq

/-- The state together with the part of the browser the script interacts with. -/
structure World where
  state : State
  /-- Interval timers currently armed (ids returned by `setInterval` and not cleared). -/
  timers : List Nat
  /-- Number of timer ids handed out so far; ids are positive integers. -/
  issued : Nat
  /-- Current value of the `#search` input. -/
  searchValue : JsString
  /-- Does the `#ventasPorDiaChart` canvas exist. -/
  canvas : Bool
  /-- Does the `#metrics-cards` container exist. -/
  metricsCards : Bool
deriving DecidableEq

/-- The state at script start (lines 4-11), no timer armed, empty search box. -/
def init (canvas metricsCards : Bool) : World :=
  { state :=
      { transactions := [], filtered := [], chart := none, lastId := 100,
        simulationHandle := none, apiOnline := false },
    timers := [], issued := 0, searchValue := [], canvas := canvas,
    metricsCards := metricsCards }

/-- The array method `slice(-n)`: the last `n` elements, all of them when there are fewer. -/
def sliceLast {α : Type} (n : Nat) (l : List α) : List α := l.drop (l.length - n)

/-! ## Exceptions -/

/-- The exceptions the script can meet. -/
inductive JsError where
  | network
  | apiUnavailable
  | parse
  | typeError
deriving DecidableEq

/-- How a block ends: normally, or by throwing; the world is the one at that point. -/
inductive Completion where
  | normal (w : World)
  | thrown (e : JsError) (w : World)
deriving DecidableEq

/-- The world at the end of a block. -/
def Completion.world : Completion → World
  | .normal w => w
  | .thrown _ w => w

/-- Did the block throw. -/
def Completion.isThrown : Completion → Bool
  | .normal _ => false
  | .thrown _ _ => true

/-! ## Metric cards and table (`renderMetrics`, `renderTable`, lines 81-121) -/

/-- An entry of `metrics` that is not `null`; a missing field is rendered as the
empty string (`?? ""`). -/
structure Metric where
  title : Option JsString
  value : Option JsString
deriving DecidableEq

/-- The function `renderMetrics(metrics)` (lines 81-98).  A value that is not
an array (`none`) counts as the empty list; in the list `none` stands for a
`null` entry, on which `m.title` throws a TypeError.  It writes to the DOM only. -/
def renderMetrics (metrics : Option (List (Option Metric))) (w : World) : Completion :=
  if !w.metricsCards then .normal w
  else
    let list := metrics.getD []
    if list.all Option.isSome then .normal w else .thrown .typeError w

/-- The rows painted by `renderTable`: the last 7, most recent first (lines 108-110). -/
def tableRows (rows : List Transaction) : List Transaction := (sliceLast 7 rows).reverse

/-- The function `renderTable(rows)` (lines 101-121): it paints `tableRows rows`
into the DOM and leaves `state` alone; reading the fields of an entry does not
throw. -/
def renderTable (_rows : List Transaction) (w : World) : World := w

/-! ## Chart aggregation (`renderChart`, lines 149-203) -/

/-- A plain object used as a map from labels to numbers, properties in creation order. -/
abbrev JsObject := List (JsString × ℚ)

/-- Property read `map[label]`: `none` stands for `undefined`.  Only own
properties are looked up: a label contains a separator (see `Platform`), so it
never names a property inherited from `Object.prototype`. -/
def JsObject.get (m : JsObject) (k : JsString) : Option ℚ :=
  (m.find? (fun p => p.1 == k)).map Prod.snd

/-- Property write `map[label] = v`: an existing property keeps its position, a
new one is created last. -/
def JsObject.set : JsObject → JsString → ℚ → JsObject
  | [], k, v => [(k, v)]
  | p :: m, k, v => if p.1 == k then (k, v) :: m else p :: JsObject.set m k v

/-- Property enumeration order of `Object.keys` and `Object.values`: canonical
array indices in ascending numeric order, then the other keys in creation order. -/
def JsObject.entries (m : JsObject) : List (JsString × ℚ) :=
  (m.filter (fun p => isArrayIndex p.1)).insertionSort
      (fun a b => indexValue a.1 ≤ indexValue b.1) ++
    m.filter (fun p => !isArrayIndex p.1)

/-- The expression `x || 0` on a number or `undefined`. -/
def orZero : Option ℚ → ℚ
  | none => 0
  | some x => if x = 0 then 0 else x

/-- Body of the `forEach` of lines 158-164. -/
def accumulate (P : Platform) (m : JsObject) (t : Transaction) : JsObject :=
  let label := P.timeLabel t.date
  m.set label (orZero (m.get label) + t.amount)

/-- The object `map` after the loop of lines 157-164 over `dataSource.slice(-50)`. -/
def buildMap (P : Platform) (dataSource : List Transaction) : JsObject :=
  (sliceLast 50 dataSource).foldl (accumulate P) []

/-- The pairs `(labels[i], values[i])` computed at lines 166-167. -/
def aggregate (P : Platform) (dataSource : List Transaction) : List (JsString × ℚ) :=
  (buildMap P dataSource).entries

/-- Choice of `dataSource` (lines 153-154); `none` stands for a `rows` that is not an array. -/
def chartDataSource (rows : Option (List Transaction)) (s : State) : List Transaction :=
  match rows with
  | some r => if r.length ≠ 0 then r else s.transactions
  | none => s.transactions

/-- The function `renderChart(rows)`: returns early without a canvas, otherwise
stores the labels and values in the chart (updating it or creating it). -/
def renderChart (P : Platform) (rows : Option (List Transaction)) (w : World) : World :=
  if !w.canvas then w
  else
    let pairs := aggregate P (chartDataSource rows w.state)
    { w with state :=
        { w.state with chart := some { labels := pairs.map Prod.fst, values := pairs.map Prod.snd } } }

/-! ## Search (`wireSearch`, lines 124-146) -/

/-- The predicate of the `filter` call at lines 134-140. -/
def matchesQuery (P : Platform) (q : JsString) (t : Transaction) : Bool :=
  includes (P.toLowerCase (t.product.getD [])) q ||
  includes (P.toLowerCase (t.id.getD [])) q

/-- Lines 129-141: the new value of `state.filtered` for the input value `raw`. -/
def applySearch (P : Platform) (raw : JsString) (txs : List Transaction) : List Transaction :=
  let q := P.toLowerCase (trim raw)
  if q.isEmpty then txs else txs.filter (matchesQuery P q)

/-- The `input` event handler: the box now holds `raw`. -/
def searchInput (P : Platform) (raw : JsString) (w : World) : World :=
  let filtered := applySearch P raw w.state.transactions
  let w1 := { w with searchValue := raw, state := { w.state with filtered := filtered } }
  renderChart P (some w1.state.filtered) (renderTable w1.state.filtered w1)

/-! ## Feed (`startRealtimeSimulation`, `stopRealtimeSimulation`, lines 206-234) -/

/-- The catalog `products` of line 212. -/
def products : List JsString :=
  [lit "RAM DDR4", lit "SSD 1TB", lit "Mouse Pro", lit "Monitor 24" ++ [39]]

/-- The values a tick draws from its environment. -/
structure TickInput where
  /-- The index `Math.floor(Math.random() * products.length)`. -/
  productIndex : Fin 4
  /-- The string `new Date().toISOString()`. -/
  date : JsString
  /-- The number `+(Math.random() * 150 + 20).toFixed(2)`. -/
  amount : ℚ
deriving DecidableEq

/-- The object `newTx` of lines 213-218, for the already incremented counter `lastId`. -/
def newTx (lastId : Nat) (i : TickInput) : Transaction :=
  { id := some (lit "txn_" ++ natToJsString lastId),
    product := some (products.getD i.productIndex.val []),
    date := i.date,
    amount := i.amount }

/-- The interval callback (lines 209-228). -/
def feedTick (P : Platform) (i : TickInput) (w : World) : World :=
  if !w.state.apiOnline then w
  else
    let lastId := w.state.lastId + 1
    let pushed := w.state.transactions ++ [newTx lastId i]
    let txs := if pushed.length > 500 then sliceLast 500 pushed else pushed
    let w1 := { w with state :=
      { w.state with lastId := lastId, transactions := txs, filtered := txs } }
    renderChart P (some w1.state.filtered) (renderTable w1.state.filtered w1)

/-- The function `startRealtimeSimulation` (lines 206-229): `setInterval` hands
out the next positive id and arms it.  A held handle is a positive number, hence
truthy. -/
def startRealtimeSimulation (w : World) : World :=
  if w.state.simulationHandle.isSome || !w.state.apiOnline then w
  else
    let handle := w.issued + 1
    { w with issued := handle, timers := w.timers ++ [handle],
             state := { w.state with simulationHandle := some handle } }

/-- The function `stopRealtimeSimulation` (lines 231-234). -/
def stopRealtimeSimulation (w : World) : World :=
  let timers := match w.state.simulationHandle with
    | some h => w.timers.filter (fun t => t != h)
    | none => w.timers
  { w with timers := timers, state := { w.state with simulationHandle := none } }

/-! ## Load (`fetchData`, lines 19-71) -/

/-- The value produced by `response.json()`.  Reading `.transactions` of `null`
throws; of any other value it yields the array (`some`) or something that is
not an array (`none`), and likewise for `.metrics`. -/
inductive Payload where
  | null
  | value (transactions : Option (List Transaction)) (metrics : Option (List (Option Metric)))
deriving DecidableEq

/-- How a `fetch` ends: rejected, or resolved with a status (`ok`) and a body
that parses as JSON (`some`) or does not (`none`). -/
inductive Response where
  | networkError
  | http (ok : Bool) (body : Option Payload)
deriving DecidableEq

/-- The function `updateUI(data)` (lines 74-78): the three rendering calls in
order; when `renderMetrics` throws, the table and the chart are not reached. -/
def updateUI (P : Platform) (metrics : Option (List (Option Metric))) (w : World) :
    Completion :=
  match renderMetrics metrics w with
  | .thrown e w1 => .thrown e w1
  | .normal w1 =>
    .normal (renderChart P (some w1.state.filtered) (renderTable w1.state.filtered w1))

/-- The `try` block of lines 23-44.  An exception of `updateUI` at line 43 leaves
it after the store was assigned and before the feed is started. -/
def liveAttempt (P : Platform) (resp : Response) (w : World) : Completion :=
  match resp with
  | .networkError => .thrown .network w
  | .http ok body =>
    if !ok then .thrown .apiUnavailable w
    else
      match body with
      | none => .thrown .parse w
      | some data =>
        let w1 := { w with state := { w.state with apiOnline := true } }
        match data with
        | .null => .thrown .typeError w1
        | .value txs metrics =>
          let transactions := txs.getD []
          let w2 := { w1 with state :=
            { w1.state with transactions := transactions, filtered := transactions } }
          match updateUI P metrics w2 with
          | .thrown e w3 => .thrown e w3
          | .normal w3 => .normal (startRealtimeSimulation w3)

/-- Lines 47-56: the start of the `catch` block, entering demo mode. -/
def demoEntry (w : World) : World :=
  stopRealtimeSimulation { w with state := { w.state with apiOnline := false } }

/-- The inner `try` block of lines 59-65; the status of the response is not
inspected.  An exception of `updateUI` at line 65 leaves it after the store was
assigned. -/
def fallbackAttempt (P : Platform) (resp : Response) (w : World) : Completion :=
  match resp with
  | .networkError => .thrown .network w
  | .http _ body =>
    match body with
    | none => .thrown .parse w
    | some .null => .thrown .typeError w
    | some (.value txs metrics) =>
      let transactions := txs.getD []
      let w1 := { w with state :=
        { w.state with transactions := transactions, filtered := transactions } }
      updateUI P metrics w1

/-! ## Events -/

/-- What can happen to the page.  The load is split where it awaits the
fallback, since other callbacks may run there. -/
inductive Event where
  | search (raw : JsString)
  | tick (i : TickInput)
  | start
  | stop
  | loadLive (resp : Response)
  | loadFallback (resp : Response)
deriving DecidableEq

/-- Is the event a part of the load operation. -/
def Event.isLoad : Event → Bool
  | .loadLive _ => true
  | .loadFallback _ => true
  | _ => false

/-- One callback, run to completion. -/
def step (P : Platform) (e : Event) (w : World) : World :=
  match e with
  | .search raw => searchInput P raw w
  | .tick i => feedTick P i w
  | .start => startRealtimeSimulation w
  | .stop => stopRealtimeSimulation w
  | .loadLive resp =>
    match liveAttempt P resp w with
    | .normal w1 => w1
    | .thrown _ w1 => demoEntry w1
  | .loadFallback resp => (fallbackAttempt P resp w).world

/-- A sequence of callbacks, in order. -/
def run (P : Platform) (es : List Event) (w : World) : World :=
  es.foldl (fun w e => step P e w) w

/-- The function `fetchData`, with the callbacks `during` that run while the
fallback request is pending. -/
def fetchData (P : Platform) (live fallback : Response) (during : List Event)
    (w : World) : Completion :=
  match liveAttempt P live w with
  | .normal w1 => .normal w1
  | .thrown _ w1 =>
    match fallbackAttempt P fallback (run P during (demoEntry w1)) with
    | .normal w3 => .normal w3
    | .thrown _ w3 => .normal w3

/-- A state is reachable when some sequence of callbacks leads to it from the start. -/
def Reachable (P : Platform) (w : World) : Prop :=
  ∃ (canvas metricsCards : Bool) (es : List Event), w = run P es (init canvas metricsCards)

/-! ## A sample platform -/

/-- Lower-casing of the letters A-Z only. -/
def asciiLower (s : JsString) : JsString :=
  s.map (fun c => if 65 ≤ c && c ≤ 90 then c + 32 else c)

/-- The characters `HH:MM` of an ISO-8601 timestamp (UTC). -/
def isoTimeLabel (d : JsString) : JsString :=
  (d.drop 11).take 2 ++ 58 :: (d.drop 14).take 2

/-- A platform for concrete evaluation: ASCII case mapping, UTC time labels. -/
def samplePlatform : Platform where
  toLowerCase := asciiLower
  timeLabel := isoTimeLabel
  toLowerCase_nil := rfl
  timeLabel_has_separator := by
    intro d
    exact ⟨58, by simp [isoTimeLabel], by decide⟩

/-- Feed ticks in sequence. -/
def ticks (P : Platform) (is : List TickInput) (w : World) : World :=
  is.foldl (fun w i => feedTick P i w) w

/-- The transactions generated by a sequence of live ticks, the counter being
`lastId` before the first of them. -/
def appended (lastId : Nat) : List TickInput → List Transaction
  | [] => []
  | i :: is => newTx (lastId + 1) i :: appended (lastId + 1) is

/-! ## The aggregation as the specification words it -/

/-- The distinct labels of a sequence, each at the place of its first occurrence. -/
def firstSeen : List JsString → List JsString
  | [] => []
  | l :: ls => l :: (firstSeen ls).filter (fun k => k != l)

/-- Total of the amounts of the entries of `window` whose label is `l`. -/
def labelTotal (P : Platform) (window : List Transaction) (l : JsString) : ℚ :=
  ((window.filter (fun t => P.timeLabel t.date == l)).map (fun t => t.amount)).sum

/-- One `(label, sum)` pair per distinct label of `window`, in first-seen order. -/
def bucketsSpec (P : Platform) (window : List Transaction) : List (JsString × ℚ) :=
  (firstSeen (window.map (fun t => P.timeLabel t.date))).map
    (fun l => (l, labelTotal P window l))

/-! ## Sample data -/

/-- A sample tick: product 0, amount 25. -/
def sampleTick : TickInput :=
  { productIndex := 0, date := lit "2024-01-01T10:00:00.000Z", amount := 25 }

/-- A sample transaction. -/
def sampleTx : Transaction :=
  { id := some (lit "txn_1"), product := some (lit "Mouse Pro"),
    date := lit "2024-01-01T09:59:00.000Z", amount := 10 }

/-- A live world whose store already holds 500 transactions. -/
def fullWorld : World :=
  { state :=
      { transactions := List.replicate 500 sampleTx, filtered := List.replicate 500 sampleTx,
        chart := none, lastId := 100, simulationHandle := some 1, apiOnline := true },
    timers := [1], issued := 1, searchValue := [], canvas := false, metricsCards := false }

/-- A live world holding one transaction, as left by a successful load. -/
def liveWorld : World :=
  step samplePlatform (.loadLive (.http true (some (.value (some [sampleTx]) (some []))))) (init true true)

/-- The fallback snapshot of the scenario: one transaction. -/
def demoSnapshotTx : Transaction :=
  { id := some (lit "1"), product := some (lit "P"),
    date := lit "2024-01-01T00:00:00Z", amount := 10 }

/-- The metric of the fallback snapshot of the scenario. -/
def demoSnapshotMetric : Metric := { title := some (lit "X"), value := some (lit "1") }

/-- A live answer with status 200, one transaction, and a `metrics` array whose
only entry is `null`. -/
def nullMetricResponse : Response :=
  .http true (some (.value (some [sampleTx]) (some [none])))

/-- The sample live world after the user typed `mouse` and one tick fired. -/
def staleWorld : World :=
  feedTick samplePlatform sampleTick (searchInput samplePlatform (lit "mouse") liveWorld)

/-! ## Invariants -/

/-- The armed timers are exactly the one whose handle the state holds, if any. -/
def TimersMatchHandle (w : World) : Prop :=
  w.timers = w.state.simulationHandle.toList

/-- In demo mode no handle is held. -/
def DemoHoldsNoHandle (w : World) : Prop :=
  w.state.apiOnline = false → w.state.simulationHandle = none

/-! ## Basic facts -/

section Basic

variable (P : Platform)

@[simp]
theorem renderChart_transactions (rows : Option (List Transaction)) (w : World) :
    (renderChart P rows w).state.transactions = w.state.transactions := by
  unfold renderChart; split <;> rfl

@[simp]
theorem renderChart_filtered (rows : Option (List Transaction)) (w : World) :
    (renderChart P rows w).state.filtered = w.state.filtered := by
  unfold renderChart; split <;> rfl

@[simp]
theorem renderChart_lastId (rows : Option (List Transaction)) (w : World) :
    (renderChart P rows w).state.lastId = w.state.lastId := by
  unfold renderChart; split <;> rfl

@[simp]
theorem renderChart_handle (rows : Option (List Transaction)) (w : World) :
    (renderChart P rows w).state.simulationHandle = w.state.simulationHandle := by
  unfold renderChart; split <;> rfl

@[simp]
theorem renderChart_apiOnline (rows : Option (List Transaction)) (w : World) :
    (renderChart P rows w).state.apiOnline = w.state.apiOnline := by
  unfold renderChart; split <;> rfl

@[simp]
theorem renderChart_timers (rows : Option (List Transaction)) (w : World) :
    (renderChart P rows w).timers = w.timers := by
  unfold renderChart; split <;> rfl

@[simp]
theorem renderChart_issued (rows : Option (List Transaction)) (w : World) :
    (renderChart P rows w).issued = w.issued := by
  unfold renderChart; split <;> rfl

@[simp]
theorem renderChart_searchValue (rows : Option (List Transaction)) (w : World) :
    (renderChart P rows w).searchValue = w.searchValue := by
  unfold renderChart; split <;> rfl

@[simp]
theorem renderChart_canvas (rows : Option (List Transaction)) (w : World) :
    (renderChart P rows w).canvas = w.canvas := by
  unfold renderChart; split <;> rfl

@[simp]
theorem renderChart_metricsCards (rows : Option (List Transaction)) (w : World) :
    (renderChart P rows w).metricsCards = w.metricsCards := by
  unfold renderChart; split <;> rfl

@[simp]
theorem renderTable_eq (rows : List Transaction) (w : World) : renderTable rows w = w := rfl

theorem renderMetrics_world (metrics : Option (List (Option Metric))) (w : World) :
    (renderMetrics metrics w).world = w := by
  unfold renderMetrics
  split
  · rfl
  · simp only
    split <;> rfl

/-- Rendering leaves everything but the chart alone, whether it throws or not. -/
theorem updateUI_frame (metrics : Option (List (Option Metric))) (w : World) :
    (updateUI P metrics w).world.state.transactions = w.state.transactions ∧
      (updateUI P metrics w).world.state.filtered = w.state.filtered ∧
      (updateUI P metrics w).world.state.simulationHandle = w.state.simulationHandle ∧
      (updateUI P metrics w).world.state.apiOnline = w.state.apiOnline ∧
      (updateUI P metrics w).world.timers = w.timers := by
  have hw := renderMetrics_world metrics w
  unfold updateUI
  cases hr : renderMetrics metrics w with
  | normal w1 =>
    rw [hr] at hw
    cases hw
    simp [Completion.world]
  | thrown e w1 =>
    rw [hr] at hw
    cases hw
    exact ⟨rfl, rfl, rfl, rfl, rfl⟩

/-- The world in which the `try` block of the live attempt ends when it throws:
timers and handle are those of the start, and the store is either untouched or
freshly assigned (`filtered` a copy of `transactions`). -/
theorem liveAttempt_thrown (resp : Response) (w : World) (e : JsError) (w1 : World)
    (h : liveAttempt P resp w = .thrown e w1) :
    w1.timers = w.timers ∧ w1.state.simulationHandle = w.state.simulationHandle ∧
      ((w1.state.transactions = w.state.transactions ∧ w1.state.filtered = w.state.filtered) ∨
        w1.state.filtered = w1.state.transactions) := by
  cases resp with
  | networkError =>
    simp only [liveAttempt, Completion.thrown.injEq] at h
    obtain ⟨-, rfl⟩ := h
    exact ⟨rfl, rfl, Or.inl ⟨rfl, rfl⟩⟩
  | http ok body =>
    cases ok with
    | false =>
      simp only [liveAttempt, Bool.not_false, if_true, Completion.thrown.injEq] at h
      obtain ⟨-, rfl⟩ := h
      exact ⟨rfl, rfl, Or.inl ⟨rfl, rfl⟩⟩
    | true =>
      cases body with
      | none =>
        simp only [liveAttempt, Bool.not_true, Bool.false_eq_true, if_false,
          Completion.thrown.injEq] at h
        obtain ⟨-, rfl⟩ := h
        exact ⟨rfl, rfl, Or.inl ⟨rfl, rfl⟩⟩
      | some data =>
        cases data with
        | null =>
          simp only [liveAttempt, Bool.not_true, Bool.false_eq_true, if_false,
            Completion.thrown.injEq] at h
          obtain ⟨-, rfl⟩ := h
          exact ⟨rfl, rfl, Or.inl ⟨rfl, rfl⟩⟩
        | value txs metrics =>
          simp only [liveAttempt, Bool.not_true, Bool.false_eq_true, if_false] at h
          obtain ⟨u1, u2, u3, -, u5⟩ := updateUI_frame P metrics
            { w with state := { w.state with apiOnline := true, transactions := txs.getD [],
                                             filtered := txs.getD [] } }
          split at h
          · rename_i e3 w3 hu
            simp only [Completion.thrown.injEq] at h
            obtain ⟨-, rfl⟩ := h
            rw [hu] at u1 u2 u3 u5
            simp only [Completion.world] at u1 u2 u3 u5
            exact ⟨u5, u3, Or.inr (u2.trans u1.symm)⟩
          · simp at h

/-- The world in which the live attempt ends when it completes: the feed was
started on a live world whose `filtered` is a copy of `transactions`. -/
theorem liveAttempt_normal (resp : Response) (w : World) (w1 : World)
    (h : liveAttempt P resp w = .normal w1) :
    ∃ w3 : World, w1 = startRealtimeSimulation w3 ∧ w3.timers = w.timers ∧
      w3.state.simulationHandle = w.state.simulationHandle ∧ w3.state.apiOnline = true ∧
      w3.state.filtered = w3.state.transactions := by
  cases resp with
  | networkError => simp [liveAttempt] at h
  | http ok body =>
    cases ok with
    | false => simp [liveAttempt] at h
    | true =>
      cases body with
      | none => simp [liveAttempt] at h
      | some data =>
        cases data with
        | null => simp [liveAttempt] at h
        | value txs metrics =>
          simp only [liveAttempt, Bool.not_true, Bool.false_eq_true, if_false] at h
          obtain ⟨u1, u2, u3, u4, u5⟩ := updateUI_frame P metrics
            { w with state := { w.state with apiOnline := true, transactions := txs.getD [],
                                             filtered := txs.getD [] } }
          split at h
          · simp at h
          · rename_i w3 hu
            simp only [Completion.normal.injEq] at h
            rw [hu] at u1 u2 u3 u4 u5
            simp only [Completion.world] at u1 u2 u3 u4 u5
            exact ⟨w3, h.symm, u5, u3, u4, u2.trans u1.symm⟩

theorem sliceLast_of_le {α : Type} (n : Nat) (l : List α) (h : l.length ≤ n) :
    sliceLast n l = l := by
  simp [sliceLast, Nat.sub_eq_zero_of_le h]

theorem length_sliceLast {α : Type} (n : Nat) (l : List α) :
    (sliceLast n l).length = min n l.length := by
  simp only [sliceLast, List.length_drop]
  omega

theorem sliceLast_append_sliceLast {α : Type} (n : Nat) (xs ys : List α) :
    sliceLast n (sliceLast n xs ++ ys) = sliceLast n (xs ++ ys) := by
  simp only [sliceLast, List.length_append, List.length_drop]
  by_cases h : xs.length ≤ n
  · simp [Nat.sub_eq_zero_of_le h]
  · have h1 : xs.length - (xs.length - n) = n := by omega
    rw [h1, List.drop_append_eq_append_drop, List.drop_append_eq_append_drop, List.drop_drop]
    simp only [List.length_drop]
    congr 2 <;> omega

/-- The cap of lines 221-223 is `slice(-500)` in every case. -/
theorem cap_eq_sliceLast (l : List Transaction) :
    (if l.length > 500 then sliceLast 500 l else l) = sliceLast 500 l := by
  split
  · rfl
  · rw [sliceLast_of_le]; omega

theorem feedTick_live (i : TickInput) (w : World) (h : w.state.apiOnline = true) :
    (feedTick P i w).state.transactions
        = sliceLast 500 (w.state.transactions ++ [newTx (w.state.lastId + 1) i]) ∧
      (feedTick P i w).state.filtered = (feedTick P i w).state.transactions ∧
      (feedTick P i w).state.lastId = w.state.lastId + 1 ∧
      (feedTick P i w).state.apiOnline = true ∧
      (feedTick P i w).searchValue = w.searchValue := by
  simp only [feedTick, h, cap_eq_sliceLast, Bool.not_true, Bool.false_eq_true, if_false,
    renderChart_transactions, renderChart_filtered, renderChart_lastId, renderChart_apiOnline,
    renderChart_searchValue, renderTable_eq, and_self]

theorem feedTick_demo (i : TickInput) (w : World) (h : w.state.apiOnline = false) :
    feedTick P i w = w := by
  simp [feedTick, h]

theorem ticks_live (is : List TickInput) (w : World) (h : w.state.apiOnline = true) :
    (ticks P is w).state.transactions
        = (if is = [] then w.state.transactions
           else sliceLast 500 (w.state.transactions ++ appended w.state.lastId is)) ∧
      (ticks P is w).state.apiOnline = true := by
  induction is generalizing w with
  | nil => simp [ticks, h]
  | cons i is ih =>
    obtain ⟨h1, -, h3, h4, -⟩ := feedTick_live P i w h
    have := ih (feedTick P i w) h4
    simp only [ticks, List.foldl_cons] at this ⊢
    refine ⟨?_, this.2⟩
    rw [this.1, h1, h3]
    by_cases hn : is = []
    · subst hn; simp [appended]
    · simp only [hn, if_false, appended, reduceCtorEq]
      rw [sliceLast_append_sliceLast]
      simp

theorem length_appended (n : Nat) (is : List TickInput) :
    (appended n is).length = is.length := by
  induction is generalizing n with
  | nil => rfl
  | cons i is ih => simp [appended, ih]

theorem includes_iff (s q : JsString) : includes s q = true ↔ q <:+: s := by
  induction s with
  | nil => simp [includes, List.isEmpty_iff]
  | cons c s ih =>
    rw [includes, Bool.or_eq_true, ih, List.infix_cons_iff, List.isPrefixOf_iff_prefix]

theorem trim_of_all_trimmable (raw : JsString) (h : raw.all isTrimmable = true) :
    trim raw = [] := by
  have : raw.dropWhile isTrimmable = [] := by
    rw [List.dropWhile_eq_nil_iff]
    simpa using h
  simp [trim, this]

theorem matchesQuery_iff (q : JsString) (t : Transaction) :
    matchesQuery P q t = true ↔
      q <:+: P.toLowerCase (t.product.getD []) ∨ q <:+: P.toLowerCase (t.id.getD []) := by
  simp [matchesQuery, includes_iff]

theorem searchInput_state (raw : JsString) (w : World) :
    (searchInput P raw w).state.transactions = w.state.transactions ∧
      (searchInput P raw w).state.filtered = applySearch P raw w.state.transactions ∧
      (searchInput P raw w).searchValue = raw := by
  simp [searchInput]

theorem mem_firstSeen (ls : List JsString) (k : JsString) : k ∈ firstSeen ls ↔ k ∈ ls := by
  induction ls with
  | nil => simp [firstSeen]
  | cons l ls ih =>
    simp only [firstSeen, List.mem_cons, List.mem_filter, ih, bne_iff_ne, ne_eq]
    constructor
    · rintro (h | ⟨h, -⟩)
      · exact Or.inl h
      · exact Or.inr h
    · rintro (h | h)
      · exact Or.inl h
      · by_cases hk : k = l
        · exact Or.inl hk
        · exact Or.inr ⟨h, hk⟩

theorem nodup_firstSeen (ls : List JsString) : (firstSeen ls).Nodup := by
  induction ls with
  | nil => simp [firstSeen]
  | cons l ls ih =>
    simp only [firstSeen, List.nodup_cons, List.mem_filter, bne_iff_ne, ne_eq, not_and,
      not_not]
    exact ⟨fun _ => trivial, ih.filter _⟩

theorem firstSeen_snoc (ls : List JsString) (l : JsString) :
    firstSeen (ls ++ [l]) = if l ∈ ls then firstSeen ls else firstSeen ls ++ [l] := by
  induction ls with
  | nil => simp [firstSeen]
  | cons a ls ih =>
    rw [List.cons_append, firstSeen, ih]
    by_cases hla : l = a
    · subst hla
      by_cases hm : l ∈ ls <;> simp [hm, List.filter_append, firstSeen]
    · have hne : (l != a) = true := by simpa using hla
      by_cases hm : l ∈ ls <;> simp [hm, hla, List.filter_append, hne, firstSeen]

theorem get_map (ks : List JsString) (f : JsString → ℚ) (l : JsString) :
    JsObject.get (ks.map (fun k => (k, f k))) l = if l ∈ ks then some (f l) else none := by
  induction ks with
  | nil => simp [JsObject.get]
  | cons a ks ih =>
    simp only [JsObject.get] at ih ⊢
    simp only [List.map_cons, List.find?_cons, List.mem_cons]
    by_cases ha : a = l
    · subst ha; simp
    · have : (a == l) = false := by simpa using ha
      rw [this]
      simp only [ih]
      have hla : ¬ l = a := fun h => ha h.symm
      simp [hla]

theorem set_map (ks : List JsString) (f : JsString → ℚ) (l : JsString) (v : ℚ)
    (hnd : ks.Nodup) :
    JsObject.set (ks.map (fun k => (k, f k))) l v =
      if l ∈ ks then ks.map (fun k => (k, if k = l then v else f k))
      else ks.map (fun k => (k, f k)) ++ [(l, v)] := by
  induction ks with
  | nil => simp [JsObject.set]
  | cons a ks ih =>
    obtain ⟨hna, hnd2⟩ := List.nodup_cons.mp hnd
    simp only [List.map_cons, JsObject.set, List.mem_cons]
    by_cases ha : a = l
    · subst ha
      simp only [beq_self_eq_true, if_true, true_or]
      congr 1
      apply List.map_congr_left
      intro k hk
      have : k ≠ a := fun h => hna (h ▸ hk)
      simp [this]
    · have hb : (a == l) = false := by simpa using ha
      have hla : ¬ l = a := fun h => ha h.symm
      simp only [hb, Bool.false_eq_true, if_false, hla, false_or, ih hnd2, ha]
      split <;> simp

/-- A label is never a canonical array index, so `Object.keys` lists the
labels in creation order. -/
theorem timeLabel_not_index (d : JsString) : isArrayIndex (P.timeLabel d) = false := by
  obtain ⟨c, hc, hw⟩ := P.timeLabel_has_separator d
  have hall : (P.timeLabel d).all (fun c => decide (48 ≤ c) && decide (c ≤ 57)) = false := by
    rw [Bool.eq_false_iff]
    intro h
    have := List.all_eq_true.mp h c hc
    simp only [isWordUnit, Bool.or_eq_false_iff] at hw
    rw [hw.1.1.1.1] at this
    exact Bool.false_ne_true this
  simp [isArrayIndex, hall]

theorem labelTotal_snoc (xs : List Transaction) (t : Transaction) (k : JsString) :
    labelTotal P (xs ++ [t]) k
      = labelTotal P xs k + (if P.timeLabel t.date = k then t.amount else 0) := by
  unfold labelTotal
  rw [List.filter_append, List.map_append, List.sum_append]
  by_cases h : P.timeLabel t.date = k <;> simp [List.filter_cons, h]

theorem labelTotal_of_not_mem (xs : List Transaction) (k : JsString)
    (h : k ∉ xs.map (fun t => P.timeLabel t.date)) : labelTotal P xs k = 0 := by
  unfold labelTotal
  have : xs.filter (fun t => P.timeLabel t.date == k) = [] := by
    rw [List.filter_eq_nil_iff]
    intro t ht hk
    exact h (List.mem_map.mpr ⟨t, ht, by simpa using hk⟩)
  simp [this]

theorem orZero_some_add (x a : ℚ) : orZero (some x) + a = x + a := by
  unfold orZero
  split <;> simp_all

theorem accumulate_bucketsSpec (xs : List Transaction) (t : Transaction) :
    accumulate P (bucketsSpec P xs) t = bucketsSpec P (xs ++ [t]) := by
  unfold accumulate bucketsSpec
  simp only [List.map_append, List.map_cons, List.map_nil]
  rw [get_map, set_map _ _ _ _ (nodup_firstSeen _), firstSeen_snoc]
  simp only [mem_firstSeen]
  by_cases hm : P.timeLabel t.date ∈ xs.map (fun t => P.timeLabel t.date)
  · simp only [hm, if_true]
    apply List.map_congr_left
    intro k _
    rw [labelTotal_snoc]
    by_cases hk : k = P.timeLabel t.date
    · subst hk
      simp [orZero_some_add]
    · have hk2 : ¬ P.timeLabel t.date = k := fun h => hk h.symm
      simp [hk, hk2]
  · simp only [hm, if_false, List.map_append, List.map_cons, List.map_nil]
    congr 1
    · apply List.map_congr_left
      intro k hk
      rw [labelTotal_snoc]
      have hk2 : ¬ P.timeLabel t.date = k := by
        intro h
        exact hm ((mem_firstSeen _ _).mp (h ▸ hk))
      simp [hk2]
    · rw [labelTotal_snoc, labelTotal_of_not_mem P xs _ hm]
      simp [orZero]

theorem foldl_accumulate (xs : List Transaction) :
    xs.foldl (accumulate P) [] = bucketsSpec P xs := by
  induction xs using List.reverseRecOn with
  | nil => rfl
  | append_singleton xs t ih =>
    rw [List.foldl_append, ih]
    exact accumulate_bucketsSpec P xs t

theorem entries_of_no_index (m : JsObject) (h : ∀ p ∈ m, isArrayIndex p.1 = false) :
    m.entries = m := by
  unfold JsObject.entries
  have h1 : m.filter (fun p => isArrayIndex p.1) = [] := by
    rw [List.filter_eq_nil_iff]
    intro p hp
    simp [h p hp]
  have h2 : m.filter (fun p => !isArrayIndex p.1) = m := by
    rw [List.filter_eq_self]
    intro p hp
    simp [h p hp]
  rw [h1, h2]
  rfl

theorem aggregate_eq_bucketsSpec (txs : List Transaction) :
    aggregate P txs = bucketsSpec P (sliceLast 50 txs) := by
  unfold aggregate buildMap
  rw [foldl_accumulate]
  apply entries_of_no_index
  intro p hp
  unfold bucketsSpec at hp
  obtain ⟨l, hl, rfl⟩ := List.mem_map.mp hp
  obtain ⟨t, -, rfl⟩ := List.mem_map.mp ((mem_firstSeen _ _).mp hl)
  exact timeLabel_not_index P _

theorem start_of_held (w : World) (h : w.state.simulationHandle.isSome = true) :
    startRealtimeSimulation w = w := by
  simp [startRealtimeSimulation, h]

theorem start_of_demo (w : World) (h : w.state.apiOnline = false) :
    startRealtimeSimulation w = w := by
  simp [startRealtimeSimulation, h]

theorem start_start (w : World) :
    startRealtimeSimulation (startRealtimeSimulation w) = startRealtimeSimulation w := by
  by_cases h : (w.state.simulationHandle.isSome || !w.state.apiOnline) = true
  · have : startRealtimeSimulation w = w := by
      unfold startRealtimeSimulation
      rw [if_pos h]
    rw [this, this]
  · have : startRealtimeSimulation w =
        { w with issued := w.issued + 1, timers := w.timers ++ [w.issued + 1],
                 state := { w.state with simulationHandle := some (w.issued + 1) } } := by
      unfold startRealtimeSimulation
      rw [if_neg h]
    rw [this]
    exact start_of_held _ rfl

theorem start_timers (w : World) (h : TimersMatchHandle w) :
    TimersMatchHandle (startRealtimeSimulation w) := by
  unfold TimersMatchHandle at h ⊢
  unfold startRealtimeSimulation
  split
  · exact h
  · rename_i hc
    have hn : w.state.simulationHandle = none := by
      cases hh : w.state.simulationHandle with
      | none => rfl
      | some x => simp [hh] at hc
    simp [h, hn]

theorem stop_timers (w : World) (h : TimersMatchHandle w) :
    TimersMatchHandle (stopRealtimeSimulation w) ∧ (stopRealtimeSimulation w).timers = [] := by
  unfold TimersMatchHandle at h ⊢
  unfold stopRealtimeSimulation
  cases hh : w.state.simulationHandle with
  | none => simp [h, hh]
  | some x => simp [h, hh]

theorem searchInput_frame (raw : JsString) (w : World) :
    (searchInput P raw w).timers = w.timers ∧
      (searchInput P raw w).state.simulationHandle = w.state.simulationHandle ∧
      (searchInput P raw w).state.apiOnline = w.state.apiOnline ∧
      (searchInput P raw w).state.lastId = w.state.lastId := by
  simp [searchInput]

theorem feedTick_frame (i : TickInput) (w : World) :
    (feedTick P i w).timers = w.timers ∧
      (feedTick P i w).state.simulationHandle = w.state.simulationHandle ∧
      (feedTick P i w).state.apiOnline = w.state.apiOnline := by
  unfold feedTick
  split <;> simp

theorem fallbackAttempt_frame (resp : Response) (w : World) :
    (fallbackAttempt P resp w).world.timers = w.timers ∧
      (fallbackAttempt P resp w).world.state.simulationHandle = w.state.simulationHandle ∧
      (fallbackAttempt P resp w).world.state.apiOnline = w.state.apiOnline := by
  cases resp with
  | networkError => exact ⟨rfl, rfl, rfl⟩
  | http ok body =>
    cases body with
    | none => exact ⟨rfl, rfl, rfl⟩
    | some data =>
      cases data with
      | null => exact ⟨rfl, rfl, rfl⟩
      | value txs metrics =>
        obtain ⟨-, -, u3, u4, u5⟩ := updateUI_frame P metrics
          { w with state := { w.state with transactions := txs.getD [],
                                           filtered := txs.getD [] } }
        exact ⟨u5, u3, u4⟩

theorem applySearch_sublist (raw : JsString) (txs : List Transaction) :
    (applySearch P raw txs).Sublist txs := by
  unfold applySearch
  simp only
  split
  · exact List.Sublist.refl _
  · exact List.filter_sublist _

theorem step_loadLive (resp : Response) (w : World) :
    step P (.loadLive resp) w =
      match liveAttempt P resp w with
      | .normal w1 => w1
      | .thrown _ w1 => demoEntry w1 := rfl

theorem step_timers (e : Event) (w : World) (h : TimersMatchHandle w) :
    TimersMatchHandle (step P e w) := by
  cases e with
  | search raw =>
    unfold TimersMatchHandle at h ⊢
    obtain ⟨h1, h2, -⟩ := searchInput_frame P raw w
    show (searchInput P raw w).timers = _
    rw [h1, h, ← h2]
    rfl
  | tick i =>
    unfold TimersMatchHandle at h ⊢
    obtain ⟨h1, h2, -⟩ := feedTick_frame P i w
    show (feedTick P i w).timers = _
    rw [h1, h, ← h2]
    rfl
  | start => exact start_timers w h
  | stop => exact (stop_timers w h).1
  | loadLive resp =>
    rw [step_loadLive]
    cases hl : liveAttempt P resp w with
    | normal w1 =>
      show TimersMatchHandle w1
      obtain ⟨w3, rfl, t1, t2, -, -⟩ := liveAttempt_normal P resp w w1 hl
      apply start_timers
      unfold TimersMatchHandle at h ⊢
      rw [t1, t2]
      exact h
    | thrown e w1 =>
      show TimersMatchHandle (demoEntry w1)
      obtain ⟨t1, t2, -⟩ := liveAttempt_thrown P resp w e w1 hl
      have hv : TimersMatchHandle w1 := by
        unfold TimersMatchHandle at h ⊢
        rw [t1, t2]
        exact h
      exact (stop_timers { w1 with state := { w1.state with apiOnline := false } } hv).1
  | loadFallback resp =>
    unfold TimersMatchHandle at h ⊢
    obtain ⟨h1, h2, -⟩ := fallbackAttempt_frame P resp w
    show (fallbackAttempt P resp w).world.timers = _
    rw [h1, h, ← h2]
    rfl

theorem run_timers (es : List Event) (w : World) (h : TimersMatchHandle w) :
    TimersMatchHandle (run P es w) := by
  induction es generalizing w with
  | nil => exact h
  | cons e es ih => exact ih _ (step_timers P e w h)

theorem run_append (es fs : List Event) (w : World) :
    run P (es ++ fs) w = run P fs (run P es w) := by
  simp [run, List.foldl_append]

theorem stop_frame (w : World) :
    (stopRealtimeSimulation w).state.transactions = w.state.transactions ∧
      (stopRealtimeSimulation w).state.filtered = w.state.filtered ∧
      (stopRealtimeSimulation w).state.apiOnline = w.state.apiOnline ∧
      (stopRealtimeSimulation w).state.simulationHandle = none ∧
      (w.state.simulationHandle = none → (stopRealtimeSimulation w).timers = w.timers) := by
  refine ⟨rfl, rfl, rfl, rfl, ?_⟩
  intro h
  simp [stopRealtimeSimulation, h]

theorem start_frame (w : World) :
    (startRealtimeSimulation w).state.transactions = w.state.transactions ∧
      (startRealtimeSimulation w).state.filtered = w.state.filtered ∧
      (startRealtimeSimulation w).state.apiOnline = w.state.apiOnline := by
  unfold startRealtimeSimulation
  split <;> exact ⟨rfl, rfl, rfl⟩

/-- In demo mode a callback other than the load keeps demo mode, the
transactions and the absence of a handle. -/
theorem step_demo (e : Event) (w : World) (he : e.isLoad = false)
    (hd : w.state.apiOnline = false) (hh : w.state.simulationHandle = none) :
    (step P e w).state.apiOnline = false ∧
      (step P e w).state.transactions = w.state.transactions ∧
      (step P e w).state.simulationHandle = none ∧
      (step P e w).timers = w.timers := by
  cases e with
  | search raw =>
    obtain ⟨h1, h2, h3, -⟩ := searchInput_frame P raw w
    exact ⟨h3.trans hd, (searchInput_state P raw w).1, h2.trans hh, h1⟩
  | tick i =>
    have hs : step P (.tick i) w = w := feedTick_demo P i w hd
    rw [hs]
    exact ⟨hd, rfl, hh, rfl⟩
  | start =>
    have hs : step P .start w = w := start_of_demo w hd
    rw [hs]
    exact ⟨hd, rfl, hh, rfl⟩
  | stop =>
    obtain ⟨h1, -, h3, h4, h5⟩ := stop_frame w
    exact ⟨h3.trans hd, h1, h4, h5 hh⟩
  | loadLive resp => simp [Event.isLoad] at he
  | loadFallback resp => simp [Event.isLoad] at he

theorem run_demo (es : List Event) (w : World) (hes : ∀ e ∈ es, e.isLoad = false)
    (hd : w.state.apiOnline = false) (hh : w.state.simulationHandle = none) :
    (run P es w).state.apiOnline = false ∧
      (run P es w).state.transactions = w.state.transactions ∧
      (run P es w).state.simulationHandle = none ∧
      (run P es w).timers = w.timers := by
  induction es generalizing w with
  | nil => exact ⟨hd, rfl, hh, rfl⟩
  | cons e es ih =>
    obtain ⟨h1, h2, h3, h4⟩ := step_demo P e w (hes e (List.mem_cons_self _ _)) hd hh
    obtain ⟨k1, k2, k3, k4⟩ :=
      ih (step P e w) (fun x hx => hes x (List.mem_cons_of_mem _ hx)) h1 h3
    exact ⟨k1, k2.trans h2, k3, k4.trans h4⟩

theorem fetchData_of_live_throw (live fallback : Response) (during : List Event) (w : World)
    (h : (liveAttempt P live w).isThrown = true) :
    fetchData P live fallback during w
      = .normal (fallbackAttempt P fallback
          (run P during (demoEntry (liveAttempt P live w).world))).world := by
  unfold fetchData
  cases hl : liveAttempt P live w with
  | normal w1 => rw [hl] at h; simp [Completion.isThrown] at h
  | thrown e w1 =>
    simp only [Completion.world]
    cases fallbackAttempt P fallback (run P during (demoEntry w1)) <;> rfl

theorem fallbackAttempt_of_value (ok : Bool) (txs : Option (List Transaction))
    (metrics : Option (List (Option Metric))) (w : World) :
    (fallbackAttempt P (.http ok (some (.value txs metrics))) w).world.state.transactions
        = txs.getD [] ∧
      (fallbackAttempt P (.http ok (some (.value txs metrics))) w).world.state.filtered
        = txs.getD [] := by
  obtain ⟨u1, u2, -⟩ := updateUI_frame P metrics
    { w with state := { w.state with transactions := txs.getD [], filtered := txs.getD [] } }
  exact ⟨u1, u2⟩

theorem demoEntry_frame (w : World) :
    (demoEntry w).state.apiOnline = false ∧ (demoEntry w).state.simulationHandle = none ∧
      (demoEntry w).state.transactions = w.state.transactions ∧
      (demoEntry w).state.filtered = w.state.filtered ∧
      (TimersMatchHandle w → (demoEntry w).timers = []) := by
  refine ⟨rfl, rfl, rfl, rfl, ?_⟩
  intro h
  exact (stop_timers { w with state := { w.state with apiOnline := false } } h).2

theorem step_sublist (e : Event) (w : World)
    (h : w.state.filtered.Sublist w.state.transactions) :
    (step P e w).state.filtered.Sublist (step P e w).state.transactions := by
  cases e with
  | search raw =>
    show (searchInput P raw w).state.filtered.Sublist (searchInput P raw w).state.transactions
    rw [(searchInput_state P raw w).1, (searchInput_state P raw w).2.1]
    exact applySearch_sublist P raw _
  | tick i =>
    show (feedTick P i w).state.filtered.Sublist (feedTick P i w).state.transactions
    cases hd : w.state.apiOnline with
    | false => rw [feedTick_demo P i w hd]; exact h
    | true => rw [(feedTick_live P i w hd).2.1]
  | start =>
    show (startRealtimeSimulation w).state.filtered.Sublist
      (startRealtimeSimulation w).state.transactions
    rw [(start_frame w).1, (start_frame w).2.1]
    exact h
  | stop => exact h
  | loadLive resp =>
    rw [step_loadLive]
    cases hl : liveAttempt P resp w with
    | normal w1 =>
      show w1.state.filtered.Sublist w1.state.transactions
      obtain ⟨w3, rfl, -, -, -, t5⟩ := liveAttempt_normal P resp w w1 hl
      rw [(start_frame w3).1, (start_frame w3).2.1, t5]
    | thrown e w1 =>
      show (demoEntry w1).state.filtered.Sublist (demoEntry w1).state.transactions
      obtain ⟨-, -, t3⟩ := liveAttempt_thrown P resp w e w1 hl
      rw [(demoEntry_frame w1).2.2.1, (demoEntry_frame w1).2.2.2.1]
      rcases t3 with ⟨t4, t5⟩ | t4
      · rw [t4, t5]
        exact h
      · rw [t4]
  | loadFallback resp =>
    cases resp with
    | networkError => exact h
    | http ok body =>
      cases body with
      | none => exact h
      | some data =>
        cases data with
        | null => exact h
        | value txs metrics =>
          show (fallbackAttempt P (.http ok (some (.value txs metrics)))
              w).world.state.filtered.Sublist
            (fallbackAttempt P (.http ok (some (.value txs metrics))) w).world.state.transactions
          rw [(fallbackAttempt_of_value P ok txs metrics w).1,
            (fallbackAttempt_of_value P ok txs metrics w).2]

theorem run_sublist (es : List Event) (w : World)
    (h : w.state.filtered.Sublist w.state.transactions) :
    (run P es w).state.filtered.Sublist (run P es w).state.transactions := by
  induction es generalizing w with
  | nil => exact h
  | cons e es ih => exact ih _ (step_sublist P e w h)

theorem step_demoHoldsNoHandle (e : Event) (w : World) (h : DemoHoldsNoHandle w) :
    DemoHoldsNoHandle (step P e w) := by
  unfold DemoHoldsNoHandle at h ⊢
  cases e with
  | search raw =>
    obtain ⟨-, h2, h3, -⟩ := searchInput_frame P raw w
    intro hd
    exact h2.trans (h (h3.symm.trans hd))
  | tick i =>
    obtain ⟨-, h2, h3⟩ := feedTick_frame P i w
    intro hd
    exact h2.trans (h (h3.symm.trans hd))
  | start =>
    intro hd
    have ha : w.state.apiOnline = false := (start_frame w).2.2.symm.trans hd
    have hs : step P .start w = w := start_of_demo w ha
    rw [hs]
    exact h ha
  | stop => exact fun _ => rfl
  | loadLive resp =>
    rw [step_loadLive]
    cases hl : liveAttempt P resp w with
    | normal w1 =>
      show w1.state.apiOnline = false → w1.state.simulationHandle = none
      obtain ⟨w3, rfl, -, -, t4, -⟩ := liveAttempt_normal P resp w w1 hl
      intro hd
      rw [(start_frame w3).2.2, t4] at hd
      exact absurd hd (by decide)
    | thrown e w1 => exact fun _ => rfl
  | loadFallback resp =>
    obtain ⟨-, h2, h3⟩ := fallbackAttempt_frame P resp w
    intro hd
    exact h2.trans (h (h3.symm.trans hd))

theorem run_demoHoldsNoHandle (es : List Event) (w : World) (h : DemoHoldsNoHandle w) :
    DemoHoldsNoHandle (run P es w) := by
  induction es generalizing w with
  | nil => exact h
  | cons e es ih => exact ih _ (step_demoHoldsNoHandle P e w h)

end Basic

/-! ## The claims -/

/-- C1: in live mode, after each of the first `k` ticks (`k ≥ 1`) of any feed
sequence, started from any transaction list, `state.transactions` is exactly
the last `min(500, n)` entries of the initial list followed by the appended
transactions, `n` being that combined length; its length is at most 500; and
when the combined length is 501 exactly the oldest entry is gone and 500 remain. -/
theorem C1_feed_retains_last_500 (P : Platform) (w : World) (is : List TickInput)
    (hlive : w.state.apiOnline = true) (k : Nat) (hk : 0 < k) (hkl : k ≤ is.length) :
    let all := w.state.transactions ++ appended w.state.lastId (is.take k)
    let after := (ticks P (is.take k) w).state.transactions
    all.length = w.state.transactions.length + k ∧
    after = all.drop (all.length - min 500 all.length) ∧
    after.length = min 500 all.length ∧
    after.length ≤ 500 ∧
    (all.length = 501 → after = all.tail ∧ after.length = 500) := by
  intro all after
  have hne : is.take k ≠ [] := by
    intro h
    have := congrArg List.length h
    simp only [List.length_take, List.length_nil] at this
    omega
  have hafter : after = sliceLast 500 all := by
    have := (ticks_live P (is.take k) w hlive).1
    simpa only [hne, if_false] using this
  have hlen : all.length = w.state.transactions.length + k := by
    simp only [all, List.length_append, length_appended, List.length_take]
    omega
  have hdrop : after = all.drop (all.length - min 500 all.length) := by
    rw [hafter, sliceLast, show all.length - min 500 all.length = all.length - 500 by omega]
  have hal : after.length = min 500 all.length := by
    rw [hafter, length_sliceLast]
  refine ⟨hlen, hdrop, hal, ?_, ?_⟩
  · rw [hal]; omega
  · intro h501
    refine ⟨?_, ?_⟩
    · rw [hdrop, h501, show 501 - min 500 501 = 1 by decide, List.drop_one]
    · rw [hal, h501]; decide

/-- C1 at a store holding 500 entries: one tick leaves 500. -/
theorem C1_feed_retains_last_500_witness :
    fullWorld.state.apiOnline = true ∧ 0 < 1 ∧ 1 ≤ [sampleTick].length ∧
      (ticks samplePlatform ([sampleTick].take 1) fullWorld).state.transactions.length = 500 :=
  ⟨rfl, by decide, by decide,
    (C1_feed_retains_last_500 samplePlatform fullWorld [sampleTick] rfl 1 (by decide)
      (by decide)).2.2.1.trans (by
        show min 500 ((List.replicate 500 sampleTx ++ appended 100 [sampleTick]).length) = 500
        rw [List.length_append, List.length_replicate]
        rfl)⟩

/-- C2: for a query whose trimmed, lower-cased form `q` is not empty, the search
handler leaves the transactions alone and sets `state.filtered` to the
transactions, in original order, for which `q` is a substring of the lower-cased
product or of the lower-cased id (an absent field counting as the empty string);
a transaction is retained iff one of the two matches succeeds; the result
depends on the query and on the fields only through their lower-cased forms. -/
theorem C2_search_retains_matches (P : Platform) (w : World) (raw : JsString)
    (hq : P.toLowerCase (trim raw) ≠ []) :
    let q := P.toLowerCase (trim raw)
    let productOf := fun t : Transaction => P.toLowerCase (t.product.getD [])
    let idOf := fun t : Transaction => P.toLowerCase (t.id.getD [])
    let after := searchInput P raw w
    after.state.transactions = w.state.transactions ∧
    after.state.filtered =
      w.state.transactions.filter
        (fun t => decide (q <:+: productOf t) || decide (q <:+: idOf t)) ∧
    (∀ t, t ∈ after.state.filtered ↔
      t ∈ w.state.transactions ∧ (q <:+: productOf t ∨ q <:+: idOf t)) ∧
    after.state.filtered.Sublist w.state.transactions ∧
    (∀ raw2, P.toLowerCase (trim raw2) = q →
      (searchInput P raw2 w).state.filtered = after.state.filtered) ∧
    (∀ t t2, productOf t = productOf t2 → idOf t = idOf t2 →
      matchesQuery P q t = matchesQuery P q t2) := by
  intro q productOf idOf after
  obtain ⟨h1, h2, -⟩ := searchInput_state P raw w
  have hqe : q.isEmpty = false := by
    cases hc : q with
    | nil => exact absurd hc hq
    | cons a l => rfl
  have hf : after.state.filtered = w.state.transactions.filter (matchesQuery P q) := by
    show (searchInput P raw w).state.filtered = _
    rw [h2]
    show (if q.isEmpty then _ else _) = _
    rw [hqe]
    rfl
  have hpred : (matchesQuery P q) =
      (fun t => decide (q <:+: productOf t) || decide (q <:+: idOf t)) := by
    funext t
    rw [Bool.eq_iff_iff, matchesQuery_iff]
    simp [productOf, idOf]
  refine ⟨h1, ?_, ?_, ?_, ?_, ?_⟩
  · rw [hf, hpred]
  · intro t
    rw [hf, List.mem_filter, matchesQuery_iff]
  · rw [hf]
    exact List.filter_sublist _
  · intro raw2 h2q
    rw [(searchInput_state P raw2 w).2.1, hf]
    show (if (P.toLowerCase (trim raw2)).isEmpty then _ else _) = _
    rw [h2q, hqe]
    rfl
  · intro t t2 hp hi
    simp only [matchesQuery]
    rw [show P.toLowerCase (t.product.getD []) = P.toLowerCase (t2.product.getD []) from hp,
      show P.toLowerCase (t.id.getD []) = P.toLowerCase (t2.id.getD []) from hi]

/-- C2 on the store `[Mouse Pro]` with the query `  MOUSE `: the entry is retained. -/
theorem C2_search_retains_matches_witness :
    samplePlatform.toLowerCase (trim (lit "  MOUSE ")) ≠ [] ∧
      (searchInput samplePlatform (lit "  MOUSE ") liveWorld).state.filtered = [sampleTx] :=
  ⟨by decide,
    (C2_search_retains_matches samplePlatform liveWorld (lit "  MOUSE ") (by decide)).2.1.trans
      (by decide)⟩

/-- C6: for a query that is empty or made of white space only, the search
handler sets `state.filtered` to the same sequence as `state.transactions`, which
it leaves alone; in particular a feed tick followed by such a query gives a
`filtered` equal to, and as long as, `transactions`. -/
theorem C6_blank_query_is_identity (P : Platform) (w : World) (raw : JsString)
    (hblank : raw.all isTrimmable = true) :
    (searchInput P raw w).state.filtered = w.state.transactions ∧
    (searchInput P raw w).state.transactions = w.state.transactions ∧
    (∀ i : TickInput,
      (searchInput P raw (feedTick P i w)).state.filtered
          = (searchInput P raw (feedTick P i w)).state.transactions ∧
        (searchInput P raw (feedTick P i w)).state.filtered.length
          = (searchInput P raw (feedTick P i w)).state.transactions.length) := by
  have key : ∀ v : World, (searchInput P raw v).state.filtered = v.state.transactions := by
    intro v
    rw [(searchInput_state P raw v).2.1]
    simp [applySearch, trim_of_all_trimmable raw hblank, P.toLowerCase_nil]
  refine ⟨key w, (searchInput_state P raw w).1, ?_⟩
  intro i
  have h := key (feedTick P i w)
  rw [(searchInput_state P raw (feedTick P i w)).1, h]
  exact ⟨rfl, rfl⟩

/-- C6 with a query of two spaces after a tick on the sample live world. -/
theorem C6_blank_query_is_identity_witness :
    (lit "  ").all isTrimmable = true ∧
      (searchInput samplePlatform (lit "  ") liveWorld).state.filtered
        = liveWorld.state.transactions :=
  ⟨by decide, (C6_blank_query_is_identity samplePlatform liveWorld (lit "  ") (by decide)).1⟩

/-- C3 at a failing input: the store holds `Mouse Pro`, the search box holds
`mouse`, a tick appends a `RAM DDR4` sale.  The box still holds `mouse`, yet
`state.filtered` now contains the new sale, which the search filter under
`mouse` rejects. -/
theorem C3_tick_ignores_query :
    staleWorld.searchValue = lit "mouse" ∧
    staleWorld.state.apiOnline = true ∧
    staleWorld.state.filtered = [sampleTx, newTx 101 sampleTick] ∧
    applySearch samplePlatform staleWorld.searchValue staleWorld.state.transactions
      = [sampleTx] ∧
    staleWorld.state.filtered
      ≠ applySearch samplePlatform staleWorld.searchValue staleWorld.state.transactions := by
  decide

/-- C4: the aggregation over the last-50 window yields exactly one pair per
distinct minute label of the window (the labels are pairwise distinct and are
those occurring in the window); the number paired with a label is the total of
the amounts of the window entries having that label; the labels come in the
order of their first occurrence in the window; and two entries with the same
label and amounts `a` and `b` give the single bucket with sum `a + b`. -/
theorem C4_aggregate_buckets (P : Platform) (txs : List Transaction) :
    let window := sliceLast 50 txs
    let label := fun t : Transaction => P.timeLabel t.date
    let out := aggregate P txs
    (out.map Prod.fst).Nodup ∧
    (∀ l, l ∈ out.map Prod.fst ↔ ∃ t ∈ window, label t = l) ∧
    (∀ l v, (l, v) ∈ out →
      v = ((window.filter (fun t => label t == l)).map (fun t => t.amount)).sum) ∧
    out.map Prod.fst = firstSeen (window.map label) ∧
    (∀ t1 t2 : Transaction, label t1 = label t2 →
      aggregate P [t1, t2] = [(label t1, t1.amount + t2.amount)]) := by
  intro window label out
  have hout : out = bucketsSpec P window := aggregate_eq_bucketsSpec P txs
  have hkeys : out.map Prod.fst = firstSeen (window.map label) := by
    rw [hout, bucketsSpec, List.map_map]
    exact List.map_id _
  refine ⟨?_, ?_, ?_, hkeys, ?_⟩
  · rw [hkeys]
    exact nodup_firstSeen _
  · intro l
    rw [hkeys, mem_firstSeen, List.mem_map]
  · intro l v hlv
    rw [hout, bucketsSpec, List.mem_map] at hlv
    obtain ⟨k, -, hk⟩ := hlv
    cases hk
    rfl
  · intro t1 t2 h12
    have h21 : P.timeLabel t2.date = P.timeLabel t1.date := h12.symm
    rw [aggregate_eq_bucketsSpec, sliceLast_of_le 50 [t1, t2] (by simp)]
    simp [bucketsSpec, firstSeen, labelTotal, label, h21, List.filter_cons]

/-- C5: the aggregation depends on its working set only through the last 50
entries, so entries before them never influence a bucket; with a canvas, the
chart is built from the given rows when they are a non-empty list, and from the
full `state.transactions` when the rows are empty or not a list; in each case
only the last 50 entries of the working set are aggregated. -/
theorem C5_chart_reads_last_50 (P : Platform) :
    (∀ rows rows2 : List Transaction, sliceLast 50 rows = sliceLast 50 rows2 →
      aggregate P rows = aggregate P rows2) ∧
    (∀ older window : List Transaction, window.length = 50 →
      aggregate P (older ++ window) = aggregate P window) ∧
    (∀ (w : World) (rows : List Transaction), rows ≠ [] →
      chartDataSource (some rows) w.state = rows) ∧
    (∀ w : World, chartDataSource (some []) w.state = w.state.transactions ∧
      chartDataSource none w.state = w.state.transactions) ∧
    (∀ (w : World) (rows : Option (List Transaction)), w.canvas = true →
      (renderChart P rows w).state.chart =
        some { labels := (bucketsSpec P (sliceLast 50 (chartDataSource rows w.state))).map Prod.fst,
               values := (bucketsSpec P (sliceLast 50 (chartDataSource rows w.state))).map Prod.snd }) := by
  refine ⟨?_, ?_, ?_, ?_, ?_⟩
  · intro rows rows2 h
    rw [aggregate_eq_bucketsSpec, aggregate_eq_bucketsSpec, h]
  · intro older window h
    rw [aggregate_eq_bucketsSpec, aggregate_eq_bucketsSpec]
    congr 1
    rw [sliceLast_of_le 50 window (by omega), sliceLast, List.length_append, h,
      Nat.add_sub_cancel, List.drop_left]
  · intro w rows h
    have : rows.length ≠ 0 := fun h0 => h (List.length_eq_zero.mp h0)
    simp [chartDataSource, this]
  · intro w
    exact ⟨rfl, rfl⟩
  · intro w rows hc
    simp only [renderChart, hc, Bool.not_true, Bool.false_eq_true, if_false,
      aggregate_eq_bucketsSpec]

/-- C7 as stated fails in demo mode: at the start of the page (`apiOnline` is
false, no handle) two consecutive calls of `startRealtimeSimulation` arm no
timer at all, not exactly one. -/
theorem C7_two_starts_in_demo_arm_none :
    (init true true).state.apiOnline = false ∧
    (startRealtimeSimulation (startRealtimeSimulation (init true true))).timers = [] ∧
    (startRealtimeSimulation (startRealtimeSimulation (init true true))).timers.length ≠ 1 := by
  decide

/-- C7, amended: calling `startRealtimeSimulation` while a handle is held
changes nothing, neither the state nor the armed timers; calling it twice is the
same as calling it once; in every reachable state the armed timers are exactly
the held handle, so at most one is armed; after two consecutive calls in a
reachable live state exactly one timer is armed, and in a reachable demo state
none is. -/
theorem C7_start_is_idempotent (P : Platform) :
    (∀ w : World, w.state.simulationHandle.isSome = true → startRealtimeSimulation w = w) ∧
    (∀ w : World,
      startRealtimeSimulation (startRealtimeSimulation w) = startRealtimeSimulation w) ∧
    (∀ w : World, Reachable P w →
      w.timers = w.state.simulationHandle.toList ∧ w.timers.length ≤ 1) ∧
    (∀ w : World, Reachable P w → w.state.apiOnline = true →
      (startRealtimeSimulation (startRealtimeSimulation w)).timers.length = 1 ∧
      (startRealtimeSimulation (startRealtimeSimulation w)).timers
        = (startRealtimeSimulation (startRealtimeSimulation w)).state.simulationHandle.toList) ∧
    (∀ w : World, Reachable P w → w.state.apiOnline = false →
      (startRealtimeSimulation (startRealtimeSimulation w)).timers = []) := by
  have hreach : ∀ w : World, Reachable P w → TimersMatchHandle w := by
    rintro w ⟨c, m, es, rfl⟩
    exact run_timers P es _ rfl
  have hdemo : ∀ w : World, Reachable P w → DemoHoldsNoHandle w := by
    rintro w ⟨c, m, es, rfl⟩
    exact run_demoHoldsNoHandle P es _ (fun _ => rfl)
  refine ⟨start_of_held, start_start, ?_, ?_, ?_⟩
  · intro w hw
    have h := hreach w hw
    refine ⟨h, ?_⟩
    rw [h]
    cases w.state.simulationHandle <;> simp
  · intro w hw hlive
    rw [start_start]
    have h1 : TimersMatchHandle (startRealtimeSimulation w) := start_timers w (hreach w hw)
    refine ⟨?_, h1⟩
    rw [h1]
    unfold startRealtimeSimulation
    cases hh : w.state.simulationHandle with
    | none => simp [hlive, hh]
    | some x => simp [hh]
  · intro w hw hd
    rw [start_start, start_of_demo w hd, hreach w hw, hdemo w hw hd]
    rfl

/-- C8: in demo mode (`apiOnline == false`) `startRealtimeSimulation` changes
nothing, so it arms no timer, and a feed tick changes nothing either, whenever it
fires; and after a load whose live attempt throws and whose fallback delivers a
snapshot, the load has not thrown, the store holds exactly the transactions of
that snapshot, and any later callbacks other than a load leave it so, in demo
mode and without a handle. -/
theorem C8_demo_feed_never_appends (P : Platform) :
    (∀ w : World, w.state.apiOnline = false → startRealtimeSimulation w = w) ∧
    (∀ (w : World) (i : TickInput), w.state.apiOnline = false → feedTick P i w = w) ∧
    (∀ (w : World) (live : Response) (ok : Bool) (txs : Option (List Transaction))
        (metrics : Option (List (Option Metric))) (during later : List Event),
      (liveAttempt P live w).isThrown = true →
      (∀ e ∈ during, e.isLoad = false) → (∀ e ∈ later, e.isLoad = false) →
      (fetchData P live (.http ok (some (.value txs metrics))) during w).isThrown = false ∧
      (fetchData P live (.http ok (some (.value txs metrics))) during w).world.state.transactions
        = txs.getD [] ∧
      (run P later
        (fetchData P live (.http ok (some (.value txs metrics))) during w).world).state.transactions
        = txs.getD [] ∧
      (run P later
        (fetchData P live (.http ok (some (.value txs metrics))) during w).world).state.apiOnline
        = false ∧
      (run P later
        (fetchData P live (.http ok (some (.value txs metrics)))
          during w).world).state.simulationHandle
        = none) := by
  refine ⟨start_of_demo, fun w i h => feedTick_demo P i w h, ?_⟩
  intro w live ok txs metrics during later hlive hdur hlater
  rw [fetchData_of_live_throw P live _ during w hlive]
  simp only [Completion.world, Completion.isThrown]
  obtain ⟨d1, d2, -, -, -⟩ := demoEntry_frame (liveAttempt P live w).world
  obtain ⟨r1, -, r3, -⟩ := run_demo P during (demoEntry (liveAttempt P live w).world) hdur d1 d2
  obtain ⟨-, f2, f3⟩ := fallbackAttempt_frame P (.http ok (some (.value txs metrics)))
    (run P during (demoEntry (liveAttempt P live w).world))
  obtain ⟨v2, -⟩ := fallbackAttempt_of_value P ok txs metrics
    (run P during (demoEntry (liveAttempt P live w).world))
  obtain ⟨l1, l2, l3, -⟩ := run_demo P later _ hlater (f3.trans r1) (f2.trans r3)
  exact ⟨trivial, v2, l2.trans v2, l1, l3⟩

/-- C8 on the scenario: the live fetch is rejected, the fallback delivers one
metric and one transaction, two ticks and a start follow; the store holds that
transaction. -/
theorem C8_demo_feed_never_appends_witness :
    (run samplePlatform [.tick sampleTick, .start, .tick sampleTick]
      (fetchData samplePlatform .networkError
        (.http true (some (.value (some [demoSnapshotTx]) (some [some demoSnapshotMetric]))))
        [] (init true true)).world).state.transactions = [demoSnapshotTx] :=
  ((C8_demo_feed_never_appends samplePlatform).2.2 (init true true) .networkError true
    (some [demoSnapshotTx]) (some [some demoSnapshotMetric]) []
    [.tick sampleTick, .start, .tick sampleTick] rfl (by decide) (by decide)).2.2.1

/-- C9 at a failing input: the page has the metric-card container; the live
endpoint answers 200 with one transaction and a `metrics` array holding `null`;
the fallback request is rejected.  The `try` block of the live attempt throws
(in `renderMetrics`, after the store was assigned) and so does the inner one, and
`fetchData` completes normally in demo mode with no timer, but the store is not
empty: it holds the live transaction. -/
theorem C9_render_throw_keeps_live_store :
    (liveAttempt samplePlatform nullMetricResponse (init true true)).isThrown = true ∧
    (fallbackAttempt samplePlatform .networkError
      (demoEntry (liveAttempt samplePlatform nullMetricResponse (init true true)).world)).isThrown
        = true ∧
    (fetchData samplePlatform nullMetricResponse .networkError [] (init true true)).isThrown
      = false ∧
    (fetchData samplePlatform nullMetricResponse .networkError []
      (init true true)).world.state.apiOnline = false ∧
    (fetchData samplePlatform nullMetricResponse .networkError []
      (init true true)).world.timers = [] ∧
    (fetchData samplePlatform nullMetricResponse .networkError []
      (init true true)).world.state.transactions = [sampleTx] ∧
    (fetchData samplePlatform nullMetricResponse .networkError []
      (init true true)).world.state.filtered = [sampleTx] ∧
    (fetchData samplePlatform nullMetricResponse .networkError []
      (init true true)).world.state.transactions ≠ [] := by
  decide

/-- C10: in every state reached from the start of the page by any sequence of
callbacks (the parts of a load with any outcome, search inputs with any query,
feed ticks, start and stop), `state.filtered` is a subsequence of
`state.transactions`: its elements are elements of `transactions`, in the same
relative order. -/
theorem C10_filtered_is_subsequence (P : Platform) (canvas metricsCards : Bool)
    (es : List Event) :
    (run P es (init canvas metricsCards)).state.filtered.Sublist
      (run P es (init canvas metricsCards)).state.transactions ∧
    (∀ t ∈ (run P es (init canvas metricsCards)).state.filtered,
      t ∈ (run P es (init canvas metricsCards)).state.transactions) := by
  have h := run_sublist P es (init canvas metricsCards) (List.Sublist.refl _)
  exact ⟨h, fun t ht => h.subset ht⟩

end Dashboard
